import Mathlib

/-!
Shallow embedding of the Tab Lifecycle Decision Engine of the
auto-tab-kill browser extension (background script): data model,
equivalence-key extraction, pattern evaluation, the duplicate resolver,
the bounded history log, and the three periodic sweeps
(inactivity close, scheduled unload, stale-unload reaper).

Timestamps are modelled as `Int` milliseconds (JavaScript numbers at the
scale used here are exact integers).  External collaborators (the
platform URL parser and the RegExp engine) are modelled explicitly and
the modelling choices are documented at their definitions.
-/

namespace AutoTabKill

/-- Terminal tab events recorded in the history log: the `type` field of
a history entry (`'closed'`, `'unloaded'`, `'killed'`). -/
inductive HistoryType where
  | closed
  | unloaded
  | killed
deriving DecidableEq, Repr

/-- One entry of the bounded history log (`closedTabs` storage):
`{url, timestamp, type}` as built by `addToHistory`. -/
structure HistoryEntry where
  url : String
  timestamp : Int
  type : HistoryType
deriving DecidableEq, Repr

/-- Snapshot of a browser tab with the fields the engine reads
(`browser.tabs.Tab`). -/
structure Tab where
  id : Nat
  url : String
  pinned : Bool
  active : Bool
  discarded : Bool
  lastAccessed : Int
deriving DecidableEq, Repr

/-- Actions a pattern can carry.  The background script's `Pattern`
typedef lists `keep` and the three duplicate actions; some UI variants
also emit a `close` action, which the engine's `switch` has no case for
(it falls through and evaluation continues). -/
inductive PatternAction where
  | keep
  | close
  | duplicate
  | duplicateNoQuery
  | duplicateDomain
deriving DecidableEq, Repr

/-- A configured URL pattern: `{pattern: string, action}`. -/
structure UrlPattern where
  pattern : String
  action : PatternAction
deriving DecidableEq, Repr

/-- The `defaultBehavior` setting values
(`'duplicate' | 'duplicate-no-query' | 'duplicate-domain' | 'always' | 'never'`). -/
inductive DefaultBehavior where
  | duplicate
  | duplicateNoQuery
  | duplicateDomain
  | always
  | never
deriving DecidableEq, Repr

/-- `settings.defaultBehavior.startsWith('duplicate')`: the three
duplicate string values start with `duplicate`, `always` and `never`
do not. -/
def DefaultBehavior.isDuplicateMode : DefaultBehavior → Bool
  | .duplicate => true
  | .duplicateNoQuery => true
  | .duplicateDomain => true
  | .always => false
  | .never => false

/-- The settings object as consumed by `shouldCloseTab` and
`checkInactiveTabs` (after loading with defaults).  `timeLimit` is in
minutes. -/
structure TabSettings where
  enabled : Bool
  timeLimit : Int
  defaultBehavior : DefaultBehavior
  showNotifications : Bool
  patterns : List UrlPattern
deriving Repr

/-! ### Model of the platform URL parser

The engine delegates URL decomposition to the platform `URL` class
(`new URL(url)`, `.origin`, `.pathname`, `.hostname`, `.search`,
`.toString()`).  It is modelled here for hierarchical
`scheme://host/path?query#fragment` URLs: the fragment is everything
after the first `#`, the query everything after the first `?` before
the fragment, the scheme must be a nonempty alphabetic prefix followed
by `://`, the host runs to the next `/` and must be nonempty, and the
path defaults to `/`.  Strings not of this shape (including
non-hierarchical URLs such as `about:config`) are treated as
unparseable; concrete inputs in the theorems below stay inside the
hierarchical fragment, where this model agrees with the platform. -/

/-- Everything before the first occurrence of `c`, and — when `c`
occurs — everything after it. -/
def breakAt (c : Char) : List Char → List Char × Option (List Char)
  | [] => ([], none)
  | x :: xs =>
    if x = c then ([], some xs)
    else
      let r := breakAt c xs
      (x :: r.1, r.2)

/-- Decomposed URL: the platform `URL` object restricted to the fields
the engine reads.  `search` and `hash` are stored without their leading
`?` and `#`. -/
structure URLObj where
  scheme : String
  host : String
  path : String
  search : Option String
  hash : Option String
deriving DecidableEq, Repr

/-- An optional URL component with its leading delimiter, as it appears
in a serialized URL (empty when absent). -/
def optPart (pre : String) : Option String → String
  | some s => pre ++ s
  | none => ""

/-- Serialization (`URL.prototype.toString`) of a decomposed URL. -/
def URLObj.toString (u : URLObj) : String :=
  u.scheme ++ "://" ++ u.host ++ u.path ++ optPart "?" u.search ++ optPart "#" u.hash

/-- `new URL(s)` on the hierarchical fragment: `some` on success,
`none` where the platform constructor throws (or where the model does
not apply). -/
def parseURL (s : String) : Option URLObj :=
  let h := breakAt '#' s.data
  let q := breakAt '?' h.1
  match breakAt ':' q.1 with
  | (schemeCs, some rest) =>
    match rest with
    | '/' :: '/' :: hostAndPath =>
      if !schemeCs.isEmpty && schemeCs.all Char.isAlpha then
        let hp := breakAt '/' hostAndPath
        if hp.1.isEmpty then none
        else
          some
            { scheme := String.mk schemeCs
              host := String.mk hp.1
              path :=
                match hp.2 with
                | none => "/"
                | some p => String.mk ('/' :: p)
              search := q.2.map String.mk
              hash := h.2.map String.mk }
      else none
    | _ => none
  | (_, none) => none

/-- `getDomain` (effective definition, README line 310): hostname of the
parsed URL, or the input itself when `new URL` throws. -/
def getDomain (url : String) : String :=
  match parseURL url with
  | some u => u.host
  | none => url

/-- `getUrlWithoutQuery` (effective definition, README line 323): clear
`urlObj.search` and reserialize, or return the input itself when
`new URL` throws.  (An earlier, shadowed definition at line 155 used
`origin + pathname` instead; in JavaScript the later declaration wins.) -/
def getUrlWithoutQuery (url : String) : String :=
  match parseURL url with
  | some u => URLObj.toString { u with search := none }
  | none => url

/-! ### Model of the platform RegExp collaborator

Pattern matching delegates to the platform regular-expression engine
(`new RegExp(e)` — which throws on an invalid expression — and
matching against a URL).  An engine is modelled as a compilation
function returning `none` exactly where the constructor throws.  The
engine-generic definitions and theorems below hold for every engine;
for closed evaluations a concrete model engine (`modelRegex`) is
provided further down, supporting the regex fragment this extension
generates: optional `^`/`$` anchors, literal characters, escaped dots
`\.`, and `.*` wildcards.  Expressions outside that fragment do not
compile in the model; the concrete non-compiling expressions used in
theorems (an unbalanced `(`) are genuinely invalid for the platform
engine too. -/

structure RegexEngine where
  compile : String → Option (String → Bool)

/-- `s.startsWith(pre)`, computed on the character lists. -/
def strStartsWith (s pre : String) : Bool :=
  pre.data.isPrefixOf s.data

/-- A token of the supported regex fragment: a literal character or the
`.*` wildcard. -/
inductive Tok where
  | lit (c : Char)
  | wild
deriving DecidableEq, Repr

/-- Whole-input match (`^...$`): a literal consumes exactly its
character, and `.*` consumes an arbitrary prefix — the rest of the
tokens must match some suffix of the input. -/
def toksMatch : List Tok → List Char → Bool
  | [], cs => cs.isEmpty
  | Tok.lit c :: ts, cs =>
    match cs with
    | [] => false
    | x :: xs => c == x && toksMatch ts xs
  | Tok.wild :: ts, cs => cs.tails.any fun suffix => toksMatch ts suffix

/-- Match of some initial segment of the input (`^...`). -/
def toksMatchInit : List Tok → List Char → Bool
  | [], _ => true
  | Tok.lit c :: ts, cs =>
    match cs with
    | [] => false
    | x :: xs => c == x && toksMatchInit ts xs
  | Tok.wild :: ts, cs => cs.tails.any fun suffix => toksMatchInit ts suffix

/-- Match of some final segment of the input (`...$`). -/
def toksMatchEnd (ts : List Tok) : List Char → Bool
  | [] => toksMatch ts []
  | x :: xs => toksMatch ts (x :: xs) || toksMatchEnd ts xs

/-- Unanchored search: some substring matches. -/
def toksFind (ts : List Tok) : List Char → Bool
  | [] => toksMatchInit ts []
  | x :: xs => toksMatchInit ts (x :: xs) || toksFind ts xs

/-- Regex metacharacters outside the supported fragment: an expression
containing one of these bare is not compiled by the model engine. -/
def regexMeta : List Char :=
  ['(', ')', '[', ']', '\x7b', '\x7d', '+', '?', '|', '^', '$', '.', '\\']

/-- Tokenize the body of a regex in the supported fragment. -/
def lexRegex : List Char → Option (List Tok)
  | [] => some []
  | '\\' :: '.' :: rest => (lexRegex rest).map (Tok.lit '.' :: ·)
  | '\\' :: _ => none
  | '.' :: '*' :: rest => (lexRegex rest).map (Tok.wild :: ·)
  | c :: rest =>
    if c ∈ regexMeta then none
    else (lexRegex rest).map (Tok.lit c :: ·)

/-- Compilation for the model engine: strip optional `^` and `$`
anchors, tokenize the body, and match accordingly. -/
def modelCompile (s : String) : Option (String → Bool) :=
  let p1 :=
    match s.data with
    | '^' :: r => (true, r)
    | cs => (false, cs)
  let p2 :=
    match p1.2.getLast? with
    | some '$' => (true, p1.2.dropLast)
    | _ => (false, p1.2)
  match lexRegex p2.2 with
  | none => none
  | some ts =>
    some fun url =>
      match p1.1, p2.1 with
      | true, true => toksMatch ts url.data
      | true, false => toksMatchInit ts url.data
      | false, true => toksMatchEnd ts url.data
      | false, false => toksFind ts url.data

/-- The concrete model regex engine. -/
def modelRegex : RegexEngine := ⟨modelCompile⟩

/-! ### Pattern Rule Engine -/

/-- The loop of `getPatternAction`: each pattern's expression is
compiled raw (`new RegExp(pattern.pattern)`) inside a `try`; a throwing
(malformed) expression is logged and skipped, a matching one returns
its action, otherwise the next pattern is tried. -/
def getPatternActionLoop (E : RegexEngine) (url : String) :
    List UrlPattern → Option PatternAction
  | [] => none
  | p :: rest =>
    match E.compile p.pattern with
    | none => getPatternActionLoop E url rest
    | some m =>
      if m url then some p.action else getPatternActionLoop E url rest

/-- `getPatternAction` (README line 132): `about:` URLs are always
`keep`, before any pattern is evaluated; otherwise the first matching
pattern's action is returned, `none` if no pattern matches. -/
def getPatternAction (E : RegexEngine) (url : String)
    (patterns : List UrlPattern) : Option PatternAction :=
  if strStartsWith url "about:" then some PatternAction.keep
  else getPatternActionLoop E url patterns

/-- The glob-to-regex conversion of `matchesPattern`: escape dots,
turn `*` into `.*`, leave every other character untouched. -/
def globToRegex (p : String) : String :=
  String.mk
    ((p.data.map fun c =>
        if c = '.' then ['\\', '.']
        else if c = '*' then ['.', '*']
        else [c]).flatten)

/-- `matchesPattern` (README line 298): anchor the converted pattern
and test the URL.  `new RegExp` here is NOT wrapped in a `try`: an
invalid resulting expression throws, modelled as `Except.error`. -/
def matchesPattern (E : RegexEngine) (url pat : String) : Except Unit Bool :=
  match E.compile ("^" ++ globToRegex pat ++ "$") with
  | none => Except.error ()
  | some m => Except.ok (m url)

/-! ### Duplicate Resolver -/

/-- The duplicate check `shouldCloseTab` performs for each equivalence
key: collect the other tabs sharing the candidate's key
(`allTabs.filter(t => t.id !== tab.id && key(t.url) === key(tab.url))`),
and declare the candidate closeable iff that list is nonempty
(`length > 0`) and every member was accessed strictly later
(`every(t => tab.lastAccessed < t.lastAccessed)`). -/
def dupCloseable (key : String → String) (tab : Tab) (allTabs : List Tab) : Bool :=
  let dups := allTabs.filter fun t => t.id != tab.id && key t.url == key tab.url
  decide (0 < dups.length) && dups.all fun t => decide (tab.lastAccessed < t.lastAccessed)

/-- The three duplicate equivalence classes. -/
inductive EquivKind where
  | exact
  | noQuery
  | domain
deriving DecidableEq, Repr

/-- Equivalence-key extraction per class: full URL, URL without query,
hostname. -/
def equivKey : EquivKind → String → String
  | .exact, u => u
  | .noQuery, u => getUrlWithoutQuery u
  | .domain, u => getDomain u

/-! ### Activity Ledger and history log -/

/-- The in-memory activity ledger `tabActivity: Map<tabId, timestamp>`,
as an association list with unique keys. -/
def Activity := List (Nat × Int)

/-- `tabActivity.delete(tabId)`. -/
def eraseTabId (activity : List (Nat × Int)) (tabId : Nat) : List (Nat × Int) :=
  activity.filter fun e => e.1 != tabId

/-- `getTabLastAccess`: `tabActivity.get(tabId) || Date.now()` — an
unknown id, or a stored falsy timestamp `0`, yields the current time. -/
def getTabLastAccess (activity : List (Nat × Int)) (tabId : Nat) (now : Int) : Int :=
  match activity.lookup tabId with
  | some t => if t = 0 then now else t
  | none => now

/-- `addToHistory` on the persisted `closedTabs` log: push the new
entry, then `shift()` off the single front (oldest) entry when the
length exceeds 100. -/
def addToHistory (log : List HistoryEntry) (url : String) (now : Int)
    (ty : HistoryType) : List HistoryEntry :=
  let l := log ++ [{ url := url, timestamp := now, type := ty }]
  if 100 < l.length then l.tail else l

/-! ### `shouldCloseTab` -/

/-- The pattern loop of `shouldCloseTab` (README lines 200-235):
`matchesPattern` may throw (propagated — there is no `try` here); on a
match, `keep` decides `false`, the three duplicate actions decide via
the duplicate resolver (each returning `false` when no tab shares the
key), and an action without a `switch` case (`close`) falls through to
the next pattern.  `none` means no pattern decided. -/
def shouldCloseLoop (E : RegexEngine) (tab : Tab) (allTabs : List Tab) :
    List UrlPattern → Except Unit (Option Bool)
  | [] => Except.ok none
  | p :: rest => do
    let m ← matchesPattern E tab.url p.pattern
    if m then
      match p.action with
      | .keep => Except.ok (some false)
      | .duplicate => Except.ok (some (dupCloseable (fun u => u) tab allTabs))
      | .duplicateNoQuery =>
        Except.ok (some (dupCloseable getUrlWithoutQuery tab allTabs))
      | .duplicateDomain =>
        Except.ok (some (dupCloseable getDomain tab allTabs))
      | .close => shouldCloseLoop E tab allTabs rest
    else shouldCloseLoop E tab allTabs rest

/-- `shouldCloseTab` (README line 193): `about:` URLs are skipped up
front; otherwise the first deciding pattern wins; with no deciding
pattern, `defaultBehavior` applies — the duplicate modes consult the
duplicate resolver and every other value (`always`, `never`) falls to
the `default: return false` branch. -/
def shouldCloseTab (E : RegexEngine) (tab : Tab) (settings : TabSettings)
    (allTabs : List Tab) : Except Unit Bool :=
  if strStartsWith tab.url "about:" then Except.ok false
  else do
    match ← shouldCloseLoop E tab allTabs settings.patterns with
    | some b => Except.ok b
    | none =>
      match settings.defaultBehavior with
      | .duplicate => Except.ok (dupCloseable (fun u => u) tab allTabs)
      | .duplicateNoQuery =>
        Except.ok (dupCloseable getUrlWithoutQuery tab allTabs)
      | .duplicateDomain => Except.ok (dupCloseable getDomain tab allTabs)
      | .always => Except.ok false
      | .never => Except.ok false

/-! ### Inactivity sweep (`checkInactiveTabs`) -/

/-- State touched by one inactivity sweep: the activity ledger, the
persisted history log, the tabs removed so far, and whether the
sweep-level `catch` was reached. -/
structure SweepState where
  activity : List (Nat × Int)
  history : List HistoryEntry
  closed : List Tab
  errored : Bool
deriving DecidableEq, Repr

/-- The per-tab loop of `checkInactiveTabs` (README lines 463-511):
skip pinned tabs, skip tabs with time left
(`timeLeft = timeLimit*60*1000 - (now - lastAccess) > 0`), then consult
`shouldCloseTab`; a throw there reaches the sweep-level `catch`,
aborting the remaining tabs with the state committed so far.  The close
decision is `isDuplicateMode ? hasDuplicate : true`; a closed tab is
appended to the history log, removed, and dropped from the ledger. -/
def checkInactiveLoop (E : RegexEngine) (settings : TabSettings)
    (allTabs : List Tab) (now : Int) : List Tab → SweepState → SweepState
  | [], st => st
  | tab :: rest, st =>
    if tab.pinned then checkInactiveLoop E settings allTabs now rest st
    else if
        0 < settings.timeLimit * 60 * 1000
            - (now - getTabLastAccess st.activity tab.id now) then
      checkInactiveLoop E settings allTabs now rest st
    else
      match shouldCloseTab E tab settings allTabs with
      | Except.error _ => { st with errored := true }
      | Except.ok hasDup =>
        if (if settings.defaultBehavior.isDuplicateMode then hasDup else true) then
          checkInactiveLoop E settings allTabs now rest
            { activity := eraseTabId st.activity tab.id
              history := addToHistory st.history tab.url now HistoryType.closed
              closed := st.closed ++ [tab]
              errored := st.errored }
        else checkInactiveLoop E settings allTabs now rest st

/-- `checkInactiveTabs` (README line 431): abort when disabled;
otherwise prepend the legacy whitelist (each entry as a `keep` pattern)
to the configured patterns and run the per-tab loop over a snapshot of
all tabs. -/
def checkInactiveTabs (E : RegexEngine) (settings : TabSettings)
    (whitelist : List String) (tabs : List Tab)
    (activity : List (Nat × Int)) (history : List HistoryEntry)
    (now : Int) : SweepState :=
  if settings.enabled then
    let merged :=
      { settings with
          patterns :=
            (whitelist.map fun w => { pattern := w, action := PatternAction.keep })
              ++ settings.patterns }
    checkInactiveLoop E merged tabs now tabs
      { activity := activity, history := history, closed := [], errored := false }
  else { activity := activity, history := history, closed := [], errored := false }

/-! ### Scheduled unload sweep (`checkUnloadTabs`) -/

/-- State touched by the scheduled unload sweep: the interval marker
`lastUnloadTime`, the `unloadedTabs` tracker, the history log, and the
ids discarded by this run. -/
structure UnloadState where
  lastUnloadTime : Int
  unloaded : List (Nat × Int)
  history : List HistoryEntry
  discardedIds : List Nat
deriving DecidableEq, Repr

/-- The per-tab loop of `checkUnloadTabs` (README lines 566-577): skip
pinned, active, or already-discarded tabs; discard the rest and append
an `unloaded` history entry.  (The source never writes to the
`unloadedTabs` tracker here, so the `unloaded` field passes through
untouched.) -/
def unloadLoop (now : Int) : List Tab → UnloadState → UnloadState
  | [], st => st
  | tab :: rest, st =>
    if tab.pinned || tab.active || tab.discarded then unloadLoop now rest st
    else
      unloadLoop now rest
        { st with
            history := addToHistory st.history tab.url now HistoryType.unloaded
            discardedIds := st.discardedIds ++ [tab.id] }

/-- `checkUnloadTabs` (README line 547): abort when disabled; a falsy
(`0`) `lastUnloadTime` is first reset to `now`; abort when
`unloadTimeout` minutes (`0` falling back to 30) have not yet elapsed;
otherwise discard every eligible tab and reset `lastUnloadTime` to
`now`. -/
def checkUnloadTabs (enabled : Bool) (unloadTimeout : Int) (tabs : List Tab)
    (now : Int) (st : UnloadState) : UnloadState :=
  if enabled then
    let last := if st.lastUnloadTime = 0 then now else st.lastUnloadTime
    let unloadInterval := (if unloadTimeout = 0 then 30 else unloadTimeout) * 60 * 1000
    if now - last < unloadInterval then { st with lastUnloadTime := last }
    else
      let st2 := unloadLoop now tabs { st with lastUnloadTime := last }
      { st2 with lastUnloadTime := now }
  else st

/-! ### Stale-unload reaper (`checkAndKillUnloadedTabs`) -/

/-- State touched by the stale-unload reaper: the `unloadedTabs`
tracker, the history log, and the ids removed by this run. -/
structure ReaperState where
  unloaded : List (Nat × Int)
  history : List HistoryEntry
  removed : List Nat
deriving DecidableEq, Repr

/-- `browser.tabs.get(tabId)` against a snapshot: `none` where the call
rejects because no such tab exists. -/
def tabsGet (tabs : List Tab) (tabId : Nat) : Option Tab :=
  tabs.find? fun t => t.id == tabId

/-- The fixed 24-hour stale threshold (`KILL_AFTER_MS`). -/
def killAfterMs : Int := 24 * 60 * 60 * 1000

/-- The record loop of `checkAndKillUnloadedTabs` (README lines
349-363): records younger than the threshold are kept; for a stale
record the tab is fetched (a rejection is caught) and the tab is
removed — with a `killed` history entry — only when it exists, is not
active, and is NOT discarded; the record itself is dropped in every
stale case.  Records are accumulated into `st.unloaded`, which the
caller passes in emptied. -/
def reaperLoop (tabs : List Tab) (now : Int) :
    List (Nat × Int) → ReaperState → ReaperState
  | [], st => st
  | (tabId, unloadTime) :: rest, st =>
    if killAfterMs ≤ now - unloadTime then
      match tabsGet tabs tabId with
      | some tab =>
        if !tab.active && !tab.discarded then
          reaperLoop tabs now rest
            { st with
                history := addToHistory st.history tab.url now HistoryType.killed
                removed := st.removed ++ [tabId] }
        else reaperLoop tabs now rest st
      | none => reaperLoop tabs now rest st
    else
      reaperLoop tabs now rest
        { st with unloaded := st.unloaded ++ [(tabId, unloadTime)] }

/-- `checkAndKillUnloadedTabs` (README line 337): abort when
`autoKillUnloaded` is false; otherwise run the record loop over the
current tracker contents. -/
def checkAndKillUnloadedTabs (autoKillUnloaded : Bool) (tabs : List Tab)
    (now : Int) (st : ReaperState) : ReaperState :=
  if autoKillUnloaded then
    reaperLoop tabs now st.unloaded { st with unloaded := [] }
  else st

/-! ## Theorems -/

theorem str_append_empty (s : String) : s ++ "" = s := by
  cases s with
  | mk l =>
    show String.mk (l ++ []) = String.mk l
    rw [List.append_nil]

/-- C1: the stale-unload reaper, run with `autoKillUnloaded=true` on a
tracker holding a 25-hour-old UnloadRecord for a tab that still exists,
is not active, and is STILL DISCARDED, removes nothing and appends no
`killed` entry — it only drops the record.  The guard
`!tab.discarded` in the source excludes exactly the still-discarded
tabs the function is named and documented to kill. -/
theorem reaper_skips_still_discarded_tab :
    killAfterMs ≤ 90000000 - 0 ∧
      checkAndKillUnloadedTabs true
          [⟨1, "https://old.example/", false, false, true, 0⟩] 90000000
          ⟨[(1, 0)], [], []⟩
        = ⟨[], [], []⟩ :=
  ⟨by decide, rfl⟩

/-- C2: one run of the inactivity sweep with `defaultBehavior='never'`
over a single non-pinned, long-inactive ordinary tab closes that tab
and appends a `closed` HistoryEntry: `never` is a non-duplicate mode,
and for those the sweep sets `shouldClose = true` unconditionally,
ignoring the `false` that `shouldCloseTab` returned. -/
theorem never_mode_still_closes_inactive_tab :
    checkInactiveTabs modelRegex
        ⟨true, 2, DefaultBehavior.never, true, [⟨"about:*", PatternAction.keep⟩]⟩
        [] [⟨1, "https://example.com/a", false, false, false, 0⟩]
        [(1, 1000)] [] 10000000
      = ⟨[], [⟨"https://example.com/a", 10000000, HistoryType.closed⟩],
          [⟨1, "https://example.com/a", false, false, false, 0⟩], false⟩ := by
  decide

/-- C3: one run of the inactivity sweep with `defaultBehavior='always'`
closes a non-pinned, long-inactive `about:config` tab, even with the
preset `about:*` keep pattern configured: in non-duplicate modes the
sweep ignores `shouldCloseTab` — and with it both the hard-coded
`about:` guard and every pattern. -/
theorem about_tab_closed_under_always_mode :
    checkInactiveTabs modelRegex
        ⟨true, 2, DefaultBehavior.always, true, [⟨"about:*", PatternAction.keep⟩]⟩
        [] [⟨1, "about:config", false, false, false, 0⟩]
        [(1, 1000)] [] 10000000
      = ⟨[], [⟨"about:config", 10000000, HistoryType.closed⟩],
          [⟨1, "about:config", false, false, false, 0⟩], false⟩ := by
  decide

/-- C4: one full pass of the scheduled unload sweep over an eligible
tab (not pinned, not active, not discarded) discards it and logs an
`unloaded` HistoryEntry, but leaves the `unloadedTabs` tracker EMPTY:
the source never inserts an UnloadRecord anywhere. -/
theorem unload_sweep_records_no_unload_record :
    checkUnloadTabs true 30 [⟨1, "https://a.example/", false, false, false, 5⟩]
        1800001 ⟨1, [], [], []⟩
      = ⟨1800001, [], [⟨"https://a.example/", 1800001, HistoryType.unloaded⟩], [1]⟩ := by
  rfl

/-- C5: under each duplicate equivalence class (exact URL, URL without
query, domain), the duplicate resolver declares a tab closeable iff at
least one other tab shares its equivalence key AND every sharing tab
has a strictly greater `lastAccessed` — so ties are never closeable and
a tab with a unique key is never closeable. -/
theorem dupCloseable_iff_oldest (k : EquivKind) (tab : Tab) (allTabs : List Tab) :
    dupCloseable (equivKey k) tab allTabs = true ↔
      ((∃ t, t ∈ allTabs ∧ t.id ≠ tab.id ∧ equivKey k t.url = equivKey k tab.url) ∧
        ∀ t, t ∈ allTabs → t.id ≠ tab.id → equivKey k t.url = equivKey k tab.url →
          tab.lastAccessed < t.lastAccessed) := by
  simp only [dupCloseable, Bool.and_eq_true, decide_eq_true_eq, List.all_eq_true,
    List.mem_filter, bne_iff_ne, beq_iff_eq, ne_eq, List.length_pos_iff_exists_mem]
  constructor
  · rintro ⟨⟨t, ht, hne, hk⟩, hall⟩
    exact ⟨⟨t, ht, hne, hk⟩, fun t ht hne hk => hall t ⟨ht, hne, hk⟩⟩
  · rintro ⟨⟨t, ht, hne, hk⟩, hall⟩
    exact ⟨⟨t, ht, hne, hk⟩, fun t ht => hall t ht.1 ht.2.1 ht.2.2⟩

theorem getPatternActionLoop_skips (E : RegexEngine) (url : String)
    (pre suf : List UrlPattern) (p : UrlPattern) (h : E.compile p.pattern = none) :
    getPatternActionLoop E url (pre ++ p :: suf)
      = getPatternActionLoop E url (pre ++ suf) := by
  induction pre with
  | nil =>
    simp only [List.nil_append, getPatternActionLoop]
    rw [h]
  | cons q pre ih =>
    simp only [List.cons_append, getPatternActionLoop]
    cases hc : E.compile q.pattern with
    | none => exact ih
    | some m =>
      by_cases hm : m url = true
      · simp [hm]
      · simp [hm, ih]

/-- C6 (amended): in `getPatternAction` a pattern whose expression does
not compile is skipped — it matches no URL, later patterns are still
evaluated, and the result is exactly as if the malformed pattern were
absent. -/
theorem getPatternAction_skips_malformed (E : RegexEngine) (url : String)
    (pre suf : List UrlPattern) (p : UrlPattern) (h : E.compile p.pattern = none) :
    getPatternAction E url (pre ++ p :: suf) = getPatternAction E url (pre ++ suf) := by
  unfold getPatternAction
  by_cases ha : strStartsWith url "about:" = true
  · rw [if_pos ha, if_pos ha]
  · rw [if_neg ha, if_neg ha]
    exact getPatternActionLoop_skips E url pre suf p h

/-- Witness for the amended C6 theorem, at the genuinely invalid
expression `(`. -/
theorem getPatternAction_skips_malformed_witness :
    modelRegex.compile "(" = none ∧
      getPatternAction modelRegex "https://example.com/"
          ([] ++ (⟨"(", PatternAction.keep⟩ : UrlPattern)
            :: [⟨"example", PatternAction.keep⟩])
        = getPatternAction modelRegex "https://example.com/"
            ([] ++ [⟨"example", PatternAction.keep⟩]) :=
  ⟨rfl,
    getPatternAction_skips_malformed modelRegex "https://example.com/"
      [] [⟨"example", PatternAction.keep⟩] ⟨"(", PatternAction.keep⟩ rfl⟩

/-- C6 (counterexample): the inactivity sweep itself evaluates patterns
through `matchesPattern`, which has no per-pattern error handling: with
the malformed pattern `(` configured, the sweep aborts at the first
non-skipped tab (sweep-level `catch`), closing nothing — while the
identical sweep without that pattern closes the tab.  The malformed
pattern DOES abort the surrounding sweep. -/
theorem malformed_pattern_aborts_inactivity_sweep :
    checkInactiveTabs modelRegex
        ⟨true, 1, DefaultBehavior.always, false, [⟨"(", PatternAction.keep⟩]⟩
        [] [⟨1, "https://a.com/x", false, false, false, 0⟩]
        [(1, 1000)] [] 10000000
      = ⟨[(1, 1000)], [], [], true⟩ ∧
      (checkInactiveTabs modelRegex
          ⟨true, 1, DefaultBehavior.always, false, []⟩
          [] [⟨1, "https://a.com/x", false, false, false, 0⟩]
          [(1, 1000)] [] 10000000).closed
        = [⟨1, "https://a.com/x", false, false, false, 0⟩] :=
  ⟨by decide, by decide⟩

/-- C7: appending to a history log currently holding at most 100
entries keeps the length at most 100; the result is a sublist of
`log ++ [entry]` (relative order of survivors preserved); at exactly
100 entries precisely the single oldest entry is evicted (strict FIFO);
below 100 nothing is evicted. -/
theorem addToHistory_bounded_fifo (log : List HistoryEntry) (url : String)
    (now : Int) (ty : HistoryType) (h : log.length ≤ 100) :
    (addToHistory log url now ty).length ≤ 100 ∧
      (addToHistory log url now ty).Sublist (log ++ [⟨url, now, ty⟩]) ∧
      (log.length = 100 →
        addToHistory log url now ty = log.tail ++ [⟨url, now, ty⟩]) ∧
      (log.length < 100 → addToHistory log url now ty = log ++ [⟨url, now, ty⟩]) := by
  unfold addToHistory
  by_cases h100 : log.length = 100
  · have hlen : 100 < (log ++ [(⟨url, now, ty⟩ : HistoryEntry)]).length := by
      simp [h100]
    rw [if_pos hlen]
    obtain ⟨a, l, rfl⟩ : ∃ a l, log = a :: l := by
      cases log with
      | nil => simp at h100
      | cons a l => exact ⟨a, l, rfl⟩
    refine ⟨?_, ?_, fun _ => rfl, fun hlt => absurd h100 (by omega)⟩
    · simp only [List.length_cons] at h100
      simp [List.length_append]
      omega
    · show (l ++ [(⟨url, now, ty⟩ : HistoryEntry)]).Sublist _
      exact List.sublist_cons_self a _ |>.trans (by simp)
  · have hlt : log.length < 100 := lt_of_le_of_ne h h100
    rw [if_neg (by simp; omega)]
    exact ⟨by simp; omega, List.Sublist.refl _, fun he => absurd he h100, fun _ => rfl⟩

/-- Witness for the C7 theorem at a log of exactly 100 entries. -/
theorem addToHistory_bounded_fifo_witness :
    (List.replicate 100 (⟨"u", 0, HistoryType.closed⟩ : HistoryEntry)).length ≤ 100 ∧
      ((addToHistory (List.replicate 100 ⟨"u", 0, HistoryType.closed⟩) "v" 7
            HistoryType.closed).length ≤ 100 ∧
        (addToHistory (List.replicate 100 ⟨"u", 0, HistoryType.closed⟩) "v" 7
              HistoryType.closed).Sublist
          (List.replicate 100 ⟨"u", 0, HistoryType.closed⟩
            ++ [⟨"v", 7, HistoryType.closed⟩]) ∧
        ((List.replicate 100 (⟨"u", 0, HistoryType.closed⟩ : HistoryEntry)).length = 100 →
          addToHistory (List.replicate 100 ⟨"u", 0, HistoryType.closed⟩) "v" 7
              HistoryType.closed
            = (List.replicate 100 (⟨"u", 0, HistoryType.closed⟩ : HistoryEntry)).tail
              ++ [⟨"v", 7, HistoryType.closed⟩]) ∧
        ((List.replicate 100 (⟨"u", 0, HistoryType.closed⟩ : HistoryEntry)).length < 100 →
          addToHistory (List.replicate 100 ⟨"u", 0, HistoryType.closed⟩) "v" 7
              HistoryType.closed
            = List.replicate 100 ⟨"u", 0, HistoryType.closed⟩
              ++ [⟨"v", 7, HistoryType.closed⟩])) :=
  ⟨by simp,
    addToHistory_bounded_fifo (List.replicate 100 ⟨"u", 0, HistoryType.closed⟩)
      "v" 7 HistoryType.closed (by simp)⟩

/-- C9 (counterexample): on a URL carrying a fragment, the effective
`getUrlWithoutQuery` keeps the fragment, so the no-query key is NOT
just scheme+host+path — something after the path remains. -/
theorem getUrlWithoutQuery_keeps_fragment :
    getUrlWithoutQuery "https://x.com/p?q=1#f" = "https://x.com/p#f" ∧
      getUrlWithoutQuery "https://x.com/p?q=1#f" ≠ "https://x.com/p" :=
  ⟨rfl, by decide⟩

/-- C9 (amended): on every parseable URL, `getUrlWithoutQuery` strips
exactly the query component, preserving scheme, host, path AND
fragment; two URLs differing only in their query components map to the
same key. -/
theorem getUrlWithoutQuery_strips_only_query :
    (∀ s u, parseURL s = some u →
        getUrlWithoutQuery s
          = u.scheme ++ "://" ++ u.host ++ u.path ++ optPart "#" u.hash) ∧
      ∀ s1 s2 u1 u2, parseURL s1 = some u1 → parseURL s2 = some u2 →
        u1.scheme = u2.scheme → u1.host = u2.host → u1.path = u2.path →
        u1.hash = u2.hash → getUrlWithoutQuery s1 = getUrlWithoutQuery s2 := by
  have key : ∀ s u, parseURL s = some u →
      getUrlWithoutQuery s
        = u.scheme ++ "://" ++ u.host ++ u.path ++ optPart "#" u.hash := by
    intro s u hp
    unfold getUrlWithoutQuery
    rw [hp]
    show URLObj.toString { u with search := none } = _
    unfold URLObj.toString optPart
    rw [str_append_empty]
  refine ⟨key, fun s1 s2 u1 u2 h1 h2 hs hh hp hf => ?_⟩
  rw [key s1 u1 h1, key s2 u2 h2, hs, hh, hp, hf]

/-- Witness for the amended C9 theorem: the fragment survives the key,
and two URLs differing only in their queries share a key. -/
theorem getUrlWithoutQuery_strips_only_query_witness :
    getUrlWithoutQuery "https://x.com/p?q=1#f"
        = "https" ++ "://" ++ "x.com" ++ "/p" ++ optPart "#" (some "f") ∧
      getUrlWithoutQuery "https://x.com/p?a=1" = getUrlWithoutQuery "https://x.com/p?b=2" :=
  ⟨getUrlWithoutQuery_strips_only_query.1 "https://x.com/p?q=1#f"
      ⟨"https", "x.com", "/p", some "q=1", some "f"⟩ rfl,
    getUrlWithoutQuery_strips_only_query.2 "https://x.com/p?a=1" "https://x.com/p?b=2"
      ⟨"https", "x.com", "/p", some "a=1", none⟩
      ⟨"https", "x.com", "/p", some "b=2", none⟩
      rfl rfl rfl rfl rfl rfl⟩

/-- C10: the equivalence-key extractors are total, and on a string the
URL parser rejects they both return the input unchanged, so a malformed
URL acts as its own equivalence key. -/
theorem key_extraction_total_on_malformed (s : String) (h : parseURL s = none) :
    getDomain s = s ∧ getUrlWithoutQuery s = s := by
  unfold getDomain getUrlWithoutQuery
  rw [h]
  exact ⟨rfl, rfl⟩

/-- Witness for the C10 theorem at a concrete unparseable string. -/
theorem key_extraction_total_on_malformed_witness :
    parseURL "not a url" = none ∧
      (getDomain "not a url" = "not a url" ∧
        getUrlWithoutQuery "not a url" = "not a url") :=
  ⟨rfl, key_extraction_total_on_malformed "not a url" rfl⟩

theorem lookup_eraseTabId (l : List (Nat × Int)) (k j : Nat) (h : j ≠ k) :
    (eraseTabId l k).lookup j = l.lookup j := by
  induction l with
  | nil => rfl
  | cons hd tl ih =>
    obtain ⟨a, b⟩ := hd
    simp only [eraseTabId, List.filter_cons] at ih ⊢
    by_cases hak : a = k
    · have hpred : ((a, b).1 != k) = false := by simp [hak]
      rw [hpred]
      simp only [Bool.false_eq_true, if_false]
      rw [ih]
      have : (j == a) = false := by simp [hak, h]
      simp [List.lookup, this]
    · have hpred : ((a, b).1 != k) = true := by simp [hak]
      rw [hpred]
      simp only [if_true]
      by_cases hja : j = a
      · simp [List.lookup, hja]
      · have : (j == a) = false := by simp [hja]
        simp [List.lookup, this, ih]

theorem getTabLastAccess_congr {m1 m2 : List (Nat × Int)} (tabId : Nat) (now : Int)
    (h : m1.lookup tabId = m2.lookup tabId) :
    getTabLastAccess m1 tabId now = getTabLastAccess m2 tabId now := by
  unfold getTabLastAccess
  rw [h]

theorem checkInactiveLoop_spares (E : RegexEngine) (settings : TabSettings)
    (allTabs : List Tab) (now : Int) (t : Tab) (A0 : List (Nat × Int))
    (h : now - getTabLastAccess A0 t.id now < settings.timeLimit * 60 * 1000) :
    ∀ (tabs : List Tab) (st : SweepState),
      st.activity.lookup t.id = A0.lookup t.id → t ∉ st.closed →
        (checkInactiveLoop E settings allTabs now tabs st).activity.lookup t.id
            = A0.lookup t.id ∧
          t ∉ (checkInactiveLoop E settings allTabs now tabs st).closed := by
  intro tabs
  induction tabs with
  | nil => exact fun st h1 h2 => ⟨h1, h2⟩
  | cons tab rest ih =>
    intro st h1 h2
    rw [checkInactiveLoop]
    by_cases hp : tab.pinned = true
    · rw [if_pos hp]
      exact ih st h1 h2
    · rw [if_neg hp]
      by_cases htime :
          0 < settings.timeLimit * 60 * 1000
            - (now - getTabLastAccess st.activity tab.id now)
      · rw [if_pos htime]
        exact ih st h1 h2
      · rw [if_neg htime]
        have hid : tab.id ≠ t.id := by
          intro he
          apply htime
          have heq : getTabLastAccess st.activity tab.id now
              = getTabLastAccess A0 t.id now := by
            rw [he]
            exact getTabLastAccess_congr t.id now h1
          rw [heq]
          omega
        cases hsc : shouldCloseTab E tab settings allTabs with
        | error e => exact ⟨h1, h2⟩
        | ok hasDup =>
          dsimp only
          by_cases hcl :
              (if settings.defaultBehavior.isDuplicateMode then hasDup else true) = true
          · rw [if_pos hcl]
            refine ih _ ?_ ?_
            · show (eraseTabId st.activity tab.id).lookup t.id = A0.lookup t.id
              rw [lookup_eraseTabId st.activity tab.id t.id (Ne.symm hid)]
              exact h1
            · show t ∉ st.closed ++ [tab]
              intro hmem
              rcases List.mem_append.mp hmem with hmem | hmem
              · exact h2 hmem
              · rcases List.mem_singleton.mp hmem with rfl
                exact hid rfl
          · rw [if_neg hcl]
            exact ih st h1 h2

/-- C8: a tab whose elapsed inactivity (now minus its Activity Ledger
value) is strictly below `timeLimit` minutes is never closed by one run
of the inactivity sweep, for every regex engine, settings object,
whitelist and pattern list: the time check skips it before any pattern
or duplicate logic runs, and its ledger entry cannot have been touched
earlier in the sweep because any tab with its id is skipped the same
way. -/
theorem fresh_tab_never_closed (E : RegexEngine) (settings : TabSettings)
    (whitelist : List String) (tabs : List Tab) (activity : List (Nat × Int))
    (history : List HistoryEntry) (now : Int) (t : Tab)
    (h : now - getTabLastAccess activity t.id now < settings.timeLimit * 60 * 1000) :
    t ∉ (checkInactiveTabs E settings whitelist tabs activity history now).closed := by
  unfold checkInactiveTabs
  by_cases he : settings.enabled = true
  · rw [if_pos he]
    dsimp only
    refine (checkInactiveLoop_spares E
      { settings with
          patterns :=
            (whitelist.map fun w => { pattern := w, action := PatternAction.keep })
              ++ settings.patterns }
      tabs now t activity h tabs ⟨activity, history, [], false⟩ rfl ?_).2
    simp
  · rw [if_neg he]
    simp

/-- Witness for the C8 theorem: a tab idle for 500 ms with a 2-minute
limit survives the sweep. -/
theorem fresh_tab_never_closed_witness :
    ((1000 : Int) - getTabLastAccess [(1, 500)] 1 1000 < 2 * 60 * 1000) ∧
      (⟨1, "https://a.com/", false, false, false, 0⟩ : Tab) ∉
        (checkInactiveTabs modelRegex
            ⟨true, 2, DefaultBehavior.always, true, []⟩ []
            [⟨1, "https://a.com/", false, false, false, 0⟩]
            [(1, 500)] [] 1000).closed :=
  ⟨by decide,
    fresh_tab_never_closed modelRegex ⟨true, 2, DefaultBehavior.always, true, []⟩
      [] [⟨1, "https://a.com/", false, false, false, 0⟩] [(1, 500)] [] 1000
      ⟨1, "https://a.com/", false, false, false, 0⟩ (by decide)⟩

end AutoTabKill
